import Mathlib

/-!
Verification of the Stroop-lab trial engine and statistics layer.

The repository is a browser-based Stroop experiment.  The statistics
aggregator (`calculateSummary`) is embedded directly from the source file
that defines it.  The small library modules the pages import
(`lib/experiment`, `lib/timing`) are not part of the available sources,
so their functions (`isCorrectResponse`, `generateTrials`,
`calculateAverage`, `calculateReactionTime`) are modelled from the
specification, as marked in their doc comments.  JavaScript numbers are
modelled as rationals; the one place where an IEEE special value can
arise (the unguarded division in `calculateSummary`) is modelled
explicitly with the `JSNum` type.
-/

namespace Stroop

/-- The three response/stimulus categories of the experiment
(words and response keys `red`, `green`, `yellow`). -/
inductive ColorKey where
  | red
  | green
  | yellow
deriving DecidableEq, Inhabited

/-- Canonical display attribute (hex color) of each category, as fixed in the
stimulus catalog (values from the repository's test helpers COLORS map). -/
def colorHex : ColorKey → String
  | .red => "#f43f5e"
  | .green => "#34d399"
  | .yellow => "#fbbf24"

/-- A single stimulus: the printed word, the font color it is shown in, and
whether the two agree. -/
structure Trial where
  id : Nat
  wordText : ColorKey
  fontColor : String
  isCongruent : Bool
deriving DecidableEq, Inhabited

/-- One recorded response, as stored per trial. -/
structure TrialResult where
  session_id : String
  word_text : ColorKey
  font_color : String
  is_congruent : Bool
  reaction_time_ms : ℚ
  user_response : ColorKey
  is_correct : Bool
deriving DecidableEq, Inhabited

/-- A JavaScript number that may be an IEEE special value.  Ordinary finite
values are rationals; `nan` and the infinities arise from division by zero. -/
inductive JSNum where
  | num (q : ℚ)
  | posInf
  | negInf
  | nan
deriving DecidableEq

/-- JavaScript division of two finite numbers: `0 / 0` is NaN, a nonzero
numerator over `0` gives a signed infinity, otherwise exact division. -/
def jsDiv (a b : ℚ) : JSNum :=
  if b = 0 then
    if a = 0 then .nan else if 0 < a then .posInf else .negInf
  else .num (a / b)

/-- JavaScript multiplication of a possibly-special number by a finite one:
NaN propagates, an infinity keeps or flips its sign and `inf * 0` is NaN. -/
def jsMul (x : JSNum) (c : ℚ) : JSNum :=
  match x with
  | .num a => .num (a * c)
  | .posInf => if 0 < c then .posInf else if c < 0 then .negInf else .nan
  | .negInf => if 0 < c then .negInf else if c < 0 then .posInf else .nan
  | .nan => .nan

/-- Modelled from the spec: `calculateAverage` from the missing `lib/timing`
module.  Arithmetic mean of a list of reaction times; the spec fixes the
empty-subset mean to the sentinel `0` (not NaN). -/
def calculateAverage (times : List ℚ) : ℚ :=
  if times.length = 0 then 0 else times.sum / times.length

/-- Summary statistics derived from a full result list. -/
structure ResultsSummary where
  congruentAvg : ℚ
  incongruentAvg : ℚ
  stroopEffect : ℚ
  totalTrials : Nat
  correctTrials : Nat
  accuracy : JSNum
deriving DecidableEq

/-- The aggregator from the results page: timing means over correct trials of
each congruency, their difference, counts, and the unguarded accuracy ratio
`(correctTrials / results.length) * 100`. -/
def calculateSummary (results : List TrialResult) : ResultsSummary :=
  let congruentTimes :=
    (results.filter (fun r => r.is_congruent && r.is_correct)).map
      (fun r => r.reaction_time_ms)
  let incongruentTimes :=
    (results.filter (fun r => !r.is_congruent && r.is_correct)).map
      (fun r => r.reaction_time_ms)
  let congruentAvg := calculateAverage congruentTimes
  let incongruentAvg := calculateAverage incongruentTimes
  let correctTrials := (results.filter (fun r => r.is_correct)).length
  { congruentAvg := congruentAvg
    incongruentAvg := incongruentAvg
    stroopEffect := incongruentAvg - congruentAvg
    totalTrials := results.length
    correctTrials := correctTrials
    accuracy := jsMul (jsDiv (correctTrials : ℚ) (results.length : ℚ)) 100 }

/-- Modelled from the spec: `isCorrectResponse` from the missing
`lib/experiment` module.  A response is correct iff it is the category whose
canonical display attribute equals the trial's font color. -/
def isCorrectResponse (trial : Trial) (response : ColorKey) : Bool :=
  colorHex response == trial.fontColor

/-- Modelled from the spec: `calculateReactionTime` from the missing
`lib/timing` module.  Elapsed time between onset and the current clock
reading, rounded to the nearest millisecond and clamped at zero. -/
def calculateReactionTime (startTime now : ℚ) : ℤ :=
  max 0 (round (now - startTime))

/-- Category assigned to the trial in position `i` of a congruency group:
the categories cycle, which balances them within ±1 per group. -/
def wordAt (i : Nat) : ColorKey :=
  match i % 3 with
  | 0 => .red
  | 1 => .green
  | _ => .yellow

/-- One of the two categories other than `c`, selected by a pseudo-random
bit: the mismatched font color of an incongruent trial. -/
def otherColor (c : ColorKey) (b : Bool) : ColorKey :=
  match c, b with
  | .red, false => .green
  | .red, true => .yellow
  | .green, false => .red
  | .green, true => .yellow
  | .yellow, false => .red
  | .yellow, true => .green

/-- The congruent trial in position `i`: the word is shown in its own
canonical color. -/
def congruentTrial (i : Nat) : Trial :=
  { id := i
    wordText := wordAt i
    fontColor := colorHex (wordAt i)
    isCongruent := true }

/-- The incongruent trial in position `i`: the word is shown in a
pseudo-randomly chosen non-matching color (`mis` supplies the random bit). -/
def incongruentTrial (mis : Nat → Bool) (i : Nat) : Trial :=
  { id := 10 + i
    wordText := wordAt i
    fontColor := colorHex (otherColor (wordAt i) (mis i))
    isCongruent := false }

/-- Modelled from the spec: `generateTrials` from the missing
`lib/experiment` module, before the final shuffle.  Ten congruent and ten
incongruent trials, categories cycling within each group, incongruent font
colors chosen pseudo-randomly among the non-matching options (`mis` is the
stream of random bits).  The final pseudo-random shuffle is modelled in the
theorems by quantifying over all permutations of this list. -/
def generateTrials (mis : Nat → Bool) : List Trial :=
  ((List.range 10).map congruentTrial)
    ++ ((List.range 10).map (incongruentTrial mis))

/-- Number of trials per session, fixed in the experiment page. -/
def TOTAL_TRIALS : Nat := 20

/-- The experiment page's session state: the React state variables
`sessionId`, `trials`, `currentIndex`, `isWaiting`, `results`, the onset
timestamp ref, a flag recording navigation to the results page, and the
FIFO queue of scheduled (never cancelled) inter-trial timeouts — each entry
records whether that timeout was scheduled as the final-trial one, which
the source decides at scheduling time. -/
structure SessionState where
  sessionId : Option String
  trials : List Trial
  currentIndex : Nat
  isWaiting : Bool
  results : List TrialResult
  startTime : ℚ
  completed : Bool
  pendingTimers : List Bool
deriving DecidableEq, Inhabited

/-- The response handler `handleResponse`: ignored while waiting, before the
session id is set, or past the end of the trial list; otherwise it records
one TrialResult for the current trial, enters the inter-trial wait, and
schedules one timeout, marked final when the just-answered trial was the
last one (the delayed effect itself is the separate `interTrialTick`). -/
def handleResponse (s : SessionState) (response : ColorKey) (now : ℚ) :
    SessionState :=
  if s.isWaiting = true ∨ s.sessionId = none ∨
      s.trials.length ≤ s.currentIndex then s
  else
    let currentTrial := s.trials.getD s.currentIndex default
    let reactionTime := calculateReactionTime s.startTime now
    let correct := isCorrectResponse currentTrial response
    let result : TrialResult :=
      { session_id := s.sessionId.getD ""
        word_text := currentTrial.wordText
        font_color := currentTrial.fontColor
        is_congruent := currentTrial.isCongruent
        reaction_time_ms := (reactionTime : ℚ)
        user_response := response
        is_correct := correct }
    { s with results := s.results ++ [result], isWaiting := true
             pendingTimers := s.pendingTimers ++
               [if TOTAL_TRIALS ≤ s.currentIndex + 1 then true else false] }

/-- The oldest scheduled timeout fires.  After navigation the component is
unmounted, so its state updates are discarded; otherwise a final timeout
navigates to the results page and a non-final one advances the index
(functional update on whatever the index now is) and ends the wait. -/
def interTrialTick (s : SessionState) : SessionState :=
  match s.pendingTimers with
  | [] => s
  | b :: rest =>
    if s.completed then { s with pendingTimers := rest }
    else if b then { s with completed := true, pendingTimers := rest }
    else { s with currentIndex := s.currentIndex + 1, isWaiting := false
                  pendingTimers := rest }

/-- The restart handler `handleRestart`: fresh session id, fresh trial
sequence, index 0, empty results, wait flag cleared.  The fresh UUID and
the output of `generateTrials()` are environment inputs passed as
parameters.  It does not cancel a scheduled timeout (there is no
`clearTimeout` in the source), so the queue is left untouched. -/
def handleRestart (s : SessionState) (newSessionId : String)
    (newTrials : List Trial) : SessionState :=
  { sessionId := some newSessionId
    trials := newTrials
    currentIndex := 0
    isWaiting := false
    results := []
    startTime := s.startTime
    completed := s.completed
    pendingTimers := s.pendingTimers }

/-- The state of a freshly started session: session id set, generated
trials, index 0, no results, no scheduled timeout. -/
def initialState (sid : String) (trials : List Trial) : SessionState :=
  { sessionId := some sid
    trials := trials
    currentIndex := 0
    isWaiting := false
    results := []
    startTime := 0
    completed := false
    pendingTimers := [] }

/-- One event of the session: a response or a restart or a stimulus-onset
effect (each possible only while the experiment page is mounted, i.e.
before navigation), or the oldest scheduled timeout firing (possible
whenever one is pending — restarting does not cancel it). -/
inductive Step : SessionState → SessionState → Prop where
  | respond (s : SessionState) (r : ColorKey) (now : ℚ)
      (h : s.completed = false) : Step s (handleResponse s r now)
  | tick (s : SessionState) (h : s.pendingTimers ≠ []) :
      Step s (interTrialTick s)
  | restart (s : SessionState) (sid : String) (ts : List Trial)
      (h : s.completed = false) : Step s (handleRestart s sid ts)
  | onset (s : SessionState) (t : ℚ) (h : s.completed = false) :
      Step s { s with startTime := t }

/-- A session state reachable from some freshly started session. -/
def Reachable (s : SessionState) : Prop :=
  ∃ sid ts, Relation.ReflTransGen Step (initialState sid ts) s

/-- Like `Step`, but restricted to executions in which a restart only
happens while no inter-trial timeout is pending (the delay has elapsed, or
no response is in flight). -/
inductive CleanStep : SessionState → SessionState → Prop where
  | respond (s : SessionState) (r : ColorKey) (now : ℚ)
      (h : s.completed = false) : CleanStep s (handleResponse s r now)
  | tick (s : SessionState) (h : s.pendingTimers ≠ []) :
      CleanStep s (interTrialTick s)
  | restart (s : SessionState) (sid : String) (ts : List Trial)
      (h : s.completed = false) (hp : s.pendingTimers = []) :
      CleanStep s (handleRestart s sid ts)
  | onset (s : SessionState) (t : ℚ) (h : s.completed = false) :
      CleanStep s { s with startTime := t }

/-- Reachable without ever restarting while a timeout is pending. -/
def CleanReachable (s : SessionState) : Prop :=
  ∃ sid ts, Relation.ReflTransGen CleanStep (initialState sid ts) s

/-- Concrete result row used in the scenario computations: the congruency
and correctness flags and the reaction time, with the remaining fields
filled coherently. -/
def mkResult (congruent correct : Bool) (rt : ℚ) : TrialResult :=
  { session_id := "s"
    word_text := ColorKey.red
    font_color :=
      if congruent then colorHex ColorKey.red else colorHex ColorKey.green
    is_congruent := congruent
    reaction_time_ms := rt
    user_response :=
      if correct then (if congruent then ColorKey.red else ColorKey.green)
      else ColorKey.yellow
    is_correct := correct }

/-- Ten congruent, all-correct results with reaction times 400..580. -/
def c2Scenario : List TrialResult :=
  ([400, 420, 440, 460, 480, 500, 520, 540, 560, 580] : List ℚ).map
    (mkResult true true)

/-- Ten results, five correct and five incorrect. -/
def c7List : List TrialResult :=
  List.replicate 5 (mkResult true true 500)
    ++ List.replicate 5 (mkResult true false 500)

/-- Ten correct congruent results at 400 ms and ten correct incongruent
results at 550 ms. -/
def c8Scenario : List TrialResult :=
  List.replicate 10 (mkResult true true 400)
    ++ List.replicate 10 (mkResult false true 550)

/-- A result set whose congruent mean exceeds its incongruent mean. -/
def c8NegList : List TrialResult :=
  [mkResult true true 500, mkResult false true 300]

/-- A small non-empty mixed result set. -/
def c10List : List TrialResult :=
  [mkResult true true 500, mkResult false false 600]

/-- The state reached right after the first response of a fresh session
with a generated 20-trial sequence. -/
def c4CexState : SessionState :=
  handleResponse (initialState "a" (generateTrials (fun _ => false)))
    ColorKey.red 5

/-- A session state inside the inter-trial waiting window. -/
def c5WaitingState : SessionState :=
  { initialState "a" (generateTrials (fun _ => false)) with
      isWaiting := true }

/-- The stale-timer state: respond once, restart during the inter-trial
wait (which does not cancel the scheduled timeout), then let the stale
timeout fire against the fresh session. -/
def c4StaleState : SessionState :=
  interTrialTick
    (handleRestart
      (handleResponse (initialState "a" (generateTrials (fun _ => false)))
        ColorKey.red 5)
      "b" (generateTrials (fun _ => true)))

/-- The mean of a non-empty list is its sum divided by its length. -/
theorem calculateAverage_ne_nil (times : List ℚ) (h : times ≠ []) :
    calculateAverage times = times.sum / times.length := by
  rw [calculateAverage, if_neg]
  simpa [List.length_eq_zero] using h

/-- On a non-empty result list the accuracy is the finite ratio
`(correct / total) * 100`. -/
theorem summary_accuracy_nonempty (results : List TrialResult)
    (h : results ≠ []) :
    (calculateSummary results).accuracy =
      JSNum.num
        ((((results.filter (fun r => r.is_correct)).length : ℚ) /
          (results.length : ℚ)) * 100) := by
  have hn : (results.length : ℚ) ≠ 0 := by
    have h0 : results.length ≠ 0 := fun hh => h (List.length_eq_zero.mp hh)
    exact_mod_cast h0
  simp [calculateSummary, jsDiv, jsMul, hn]

/-- C1: for every Trial whose font color is the canonical display attribute
of category `c`, `isCorrectResponse` accepts exactly the response `c` and
rejects every other category. -/
theorem c1_evaluator_correct (trial : Trial) (c : ColorKey)
    (h : trial.fontColor = colorHex c) :
    isCorrectResponse trial c = true ∧
    ∀ c2 : ColorKey, c2 ≠ c → isCorrectResponse trial c2 = false := by
  constructor
  · simp [isCorrectResponse, h]
  · intro c2 hne
    have hhex : colorHex c2 ≠ colorHex c := by
      revert hne
      cases c <;> cases c2 <;> decide
    rw [isCorrectResponse, h, beq_eq_false_iff_ne]
    exact hhex

/-- Witness for C1 at the congruent red trial: red is accepted, green is
rejected. -/
theorem c1_evaluator_correct_witness :
    (congruentTrial 0).fontColor = colorHex ColorKey.red ∧
    isCorrectResponse (congruentTrial 0) ColorKey.red = true ∧
    isCorrectResponse (congruentTrial 0) ColorKey.green = false :=
  ⟨rfl, (c1_evaluator_correct (congruentTrial 0) ColorKey.red rfl).1,
    (c1_evaluator_correct (congruentTrial 0) ColorKey.red rfl).2
      ColorKey.green (by decide)⟩

/-- C3 counterexample: the summary of the empty result list carries the NaN
produced by the unguarded `0 / 0` accuracy division, so an exceptional
division-by-zero value does propagate out of the summarizer. -/
theorem c3_empty_accuracy_nan :
    (calculateSummary []).accuracy = JSNum.nan := by
  simp [calculateSummary, jsDiv, jsMul]

/-- C3 amended: the empty summary has both timing means 0, stroop effect 0,
zero counts, and NaN accuracy (a defined, non-crashing value that downstream
display must treat as an empty state). -/
theorem c3_empty_summary :
    (calculateSummary []).congruentAvg = 0 ∧
    (calculateSummary []).incongruentAvg = 0 ∧
    (calculateSummary []).stroopEffect = 0 ∧
    (calculateSummary []).totalTrials = 0 ∧
    (calculateSummary []).correctTrials = 0 ∧
    (calculateSummary []).accuracy = JSNum.nan := by
  refine ⟨?_, ?_, ?_, ?_, ?_, ?_⟩ <;>
    simp [calculateSummary, calculateAverage, jsDiv, jsMul]

/-- C9: the reaction time is a non-negative integer count of milliseconds;
a clock reading at or before onset is clamped to zero, and otherwise the
elapsed duration is rounded to the nearest millisecond. -/
theorem c9_reaction_time (startTime now : ℚ) :
    0 ≤ calculateReactionTime startTime now ∧
    (now ≤ startTime → calculateReactionTime startTime now = 0) ∧
    (startTime ≤ now →
      calculateReactionTime startTime now = round (now - startTime)) := by
  refine ⟨le_max_left _ _, fun h => ?_, fun h => ?_⟩
  · have h1 : round (now - startTime) ≤ 0 := by
      rw [round_eq]
      have h2 : now - startTime + 1 / 2 < ((1 : ℤ) : ℚ) := by
        push_cast
        linarith
      have h3 := Int.floor_lt.mpr h2
      omega
    rw [calculateReactionTime, max_eq_left h1]
  · have h1 : (0 : ℤ) ≤ round (now - startTime) := by
      rw [round_eq]
      apply Int.le_floor.mpr
      push_cast
      linarith
    rw [calculateReactionTime, max_eq_right h1]

/-- Witness for C9 with the clock 2 ms before onset: the result is clamped
to zero. -/
theorem c9_reaction_time_witness :
    ((3 : ℚ) ≤ 5) ∧ calculateReactionTime 5 3 = 0 :=
  ⟨by norm_num, (c9_reaction_time 5 3).2.1 (by norm_num)⟩

/-- C2: each timing mean of the summary is the arithmetic mean of the
reaction times over exactly the results of that congruency with a correct
response; appending an incorrect result changes neither mean; and the ten
congruent all-correct results with times 400..580 average to 490. -/
theorem c2_timing_means (results : List TrialResult) :
    (((results.filter (fun r => r.is_congruent && r.is_correct)).map
        (fun r => r.reaction_time_ms)) ≠ [] →
      (calculateSummary results).congruentAvg =
        ((results.filter (fun r => r.is_congruent && r.is_correct)).map
          (fun r => r.reaction_time_ms)).sum /
        (((results.filter (fun r => r.is_congruent && r.is_correct)).map
          (fun r => r.reaction_time_ms)).length : ℚ)) ∧
    (((results.filter (fun r => !r.is_congruent && r.is_correct)).map
        (fun r => r.reaction_time_ms)) ≠ [] →
      (calculateSummary results).incongruentAvg =
        ((results.filter (fun r => !r.is_congruent && r.is_correct)).map
          (fun r => r.reaction_time_ms)).sum /
        (((results.filter (fun r => !r.is_congruent && r.is_correct)).map
          (fun r => r.reaction_time_ms)).length : ℚ)) ∧
    (∀ r : TrialResult, r.is_correct = false →
      (calculateSummary (results ++ [r])).congruentAvg =
        (calculateSummary results).congruentAvg ∧
      (calculateSummary (results ++ [r])).incongruentAvg =
        (calculateSummary results).incongruentAvg) ∧
    (calculateSummary c2Scenario).congruentAvg = 490 := by
  refine ⟨fun h => ?_, fun h => ?_, fun r hr => ?_, ?_⟩
  · exact calculateAverage_ne_nil _ h
  · exact calculateAverage_ne_nil _ h
  · constructor <;>
      simp [calculateSummary, List.filter_append, List.filter, hr]
  · norm_num [c2Scenario, mkResult, calculateSummary, calculateAverage,
      List.filter]

/-- Witness for C2 at the 400..580 scenario: the filtered congruent subset
is non-empty and the summary mean equals its sum over its size. -/
theorem c2_timing_means_witness :
    ((c2Scenario.filter (fun r => r.is_congruent && r.is_correct)).map
      (fun r => r.reaction_time_ms)) ≠ [] ∧
    (calculateSummary c2Scenario).congruentAvg =
      ((c2Scenario.filter (fun r => r.is_congruent && r.is_correct)).map
        (fun r => r.reaction_time_ms)).sum /
      (((c2Scenario.filter (fun r => r.is_congruent && r.is_correct)).map
        (fun r => r.reaction_time_ms)).length : ℚ) :=
  ⟨by decide, (c2_timing_means c2Scenario).1 (by decide)⟩

/-- C7: on any non-empty result list the accuracy is
`100 * correctCount / totalCount`, and five correct out of ten gives 50. -/
theorem c7_accuracy (results : List TrialResult) (h : results ≠ []) :
    (calculateSummary results).accuracy =
      JSNum.num (100 * ((results.filter (fun r => r.is_correct)).length : ℚ) /
        (results.length : ℚ)) ∧
    ((results.filter (fun r => r.is_correct)).length = 5 ∧
        results.length = 10 →
      (calculateSummary results).accuracy = JSNum.num 50) := by
  have h1 := summary_accuracy_nonempty results h
  constructor
  · rw [h1]
    simp only [JSNum.num.injEq]
    ring
  · rintro ⟨h5, h10⟩
    rw [h1, h5, h10]
    simp only [JSNum.num.injEq]
    norm_num

/-- Witness for C7 at a concrete set of five correct and five incorrect
results: accuracy 50. -/
theorem c7_accuracy_witness :
    c7List ≠ [] ∧ (c7List.filter (fun r => r.is_correct)).length = 5 ∧
    c7List.length = 10 ∧
    (calculateSummary c7List).accuracy = JSNum.num 50 :=
  ⟨by decide, by decide, by decide,
    (c7_accuracy c7List (by decide)).2 ⟨by decide, by decide⟩⟩

/-- C8: the stroop effect of a summary is exactly the incongruent mean
minus the congruent mean, with no clamping (it is negative whenever the
congruent mean is larger), and the 400 ms / 550 ms scenario yields effect
150 with accuracy 100. -/
theorem c8_stroop_effect (results : List TrialResult) :
    (calculateSummary results).stroopEffect =
      (calculateSummary results).incongruentAvg -
        (calculateSummary results).congruentAvg ∧
    ((calculateSummary results).incongruentAvg <
        (calculateSummary results).congruentAvg →
      (calculateSummary results).stroopEffect < 0) ∧
    (calculateSummary c8Scenario).stroopEffect = 150 ∧
    (calculateSummary c8Scenario).accuracy = JSNum.num 100 := by
  refine ⟨rfl, fun h => ?_, ?_, ?_⟩
  · exact sub_neg.mpr h
  · norm_num [c8Scenario, mkResult, calculateSummary, calculateAverage,
      List.replicate, List.filter]
  · norm_num [c8Scenario, mkResult, calculateSummary, calculateAverage,
      jsDiv, jsMul, List.replicate, List.filter]

/-- Witness for C8 at a set whose congruent mean exceeds its incongruent
mean: the reported effect is negative. -/
theorem c8_stroop_effect_witness :
    (calculateSummary c8NegList).incongruentAvg <
      (calculateSummary c8NegList).congruentAvg ∧
    (calculateSummary c8NegList).stroopEffect < 0 :=
  ⟨by norm_num [c8NegList, mkResult, calculateSummary, calculateAverage,
      List.filter],
    (c8_stroop_effect c8NegList).2.1
      (by norm_num [c8NegList, mkResult, calculateSummary, calculateAverage,
        List.filter])⟩

/-- C10: the summary counts are the length of the input and the number of
correct results, the correct count never exceeds the total, and on any
non-empty input the accuracy is a finite value between 0 and 100. -/
theorem c10_summary_invariants (results : List TrialResult) :
    (calculateSummary results).totalTrials = results.length ∧
    (calculateSummary results).correctTrials =
      results.countP (fun r => r.is_correct) ∧
    (calculateSummary results).correctTrials ≤
      (calculateSummary results).totalTrials ∧
    (results ≠ [] → ∃ q : ℚ,
      (calculateSummary results).accuracy = JSNum.num q ∧
      0 ≤ q ∧ q ≤ 100) := by
  refine ⟨rfl, ?_, ?_, fun h => ?_⟩
  · exact (List.countP_eq_length_filter _ _).symm
  · exact List.length_filter_le _ _
  · have hn : (0 : ℚ) < (results.length : ℚ) := by
      have h0 : results.length ≠ 0 := fun hh => h (List.length_eq_zero.mp hh)
      exact_mod_cast Nat.pos_of_ne_zero h0
    have hcn : (((results.filter (fun r => r.is_correct)).length : ℚ)) ≤
        (results.length : ℚ) := by
      exact_mod_cast List.length_filter_le _ _
    refine ⟨_, summary_accuracy_nonempty results h, ?_, ?_⟩
    · positivity
    · have h2 : (((results.filter (fun r => r.is_correct)).length : ℚ)) /
          (results.length : ℚ) ≤ 1 := (div_le_one hn).mpr hcn
      nlinarith [h2]

/-- Witness for C10 at a concrete two-element result list. -/
theorem c10_summary_invariants_witness :
    c10List ≠ [] ∧ ∃ q : ℚ,
      (calculateSummary c10List).accuracy = JSNum.num q ∧
      0 ≤ q ∧ q ≤ 100 :=
  ⟨by decide, (c10_summary_invariants c10List).2.2.2 (by decide)⟩

/-- Counting with an always-true predicate gives the length. -/
theorem countP_const_true {α : Type} (l : List α) :
    l.countP (fun _ => true) = l.length := by
  induction l with
  | nil => rfl
  | cons a l ih => simp [List.countP_cons, ih]

/-- Counting with an always-false predicate gives zero. -/
theorem countP_const_false {α : Type} (l : List α) :
    l.countP (fun _ => false) = 0 := by
  induction l with
  | nil => rfl
  | cons a l ih => simp [List.countP_cons, ih]

/-- Counting over a mapped list counts the composed predicate. -/
theorem countP_map_eq {α β : Type} (f : α → β) (p : β → Bool)
    (l : List α) : (l.map f).countP p = l.countP (fun a => p (f a)) := by
  induction l with
  | nil => rfl
  | cons a l ih => simp [List.countP_cons, ih]

/-- C6: every outcome of the generator — any stream of pseudo-random
mismatch bits and any shuffle of the generated list — has exactly 20
trials, 10 congruent and 10 incongruent. -/
theorem c6_generate_trials_balanced (mis : Nat → Bool) (l : List Trial)
    (h : l.Perm (generateTrials mis)) :
    l.length = 20 ∧
    l.countP (fun t => t.isCongruent) = 10 ∧
    l.countP (fun t => !t.isCongruent) = 10 := by
  refine ⟨?_, ?_, ?_⟩
  · rw [h.length_eq]
    simp [generateTrials]
  · rw [h.countP_eq]
    rw [generateTrials, List.countP_append, countP_map_eq, countP_map_eq]
    simp [congruentTrial, incongruentTrial, countP_const_true,
      countP_const_false]
  · rw [h.countP_eq]
    rw [generateTrials, List.countP_append, countP_map_eq, countP_map_eq]
    simp [congruentTrial, incongruentTrial, countP_const_true,
      countP_const_false]

/-- Witness for C6: the identity shuffle of the all-false bit stream. -/
theorem c6_generate_trials_balanced_witness :
    (generateTrials (fun _ => false)).Perm
      (generateTrials (fun _ => false)) ∧
    (generateTrials (fun _ => false)).length = 20 ∧
    (generateTrials (fun _ => false)).countP (fun t => t.isCongruent) = 10 ∧
    (generateTrials (fun _ => false)).countP
      (fun t => !t.isCongruent) = 10 :=
  ⟨List.Perm.refl _,
    c6_generate_trials_balanced (fun _ => false) _ (List.Perm.refl _)⟩

/-- C5: a response arriving while the session is waiting out the inter-trial
delay, has no session id yet, or is past the last trial leaves the state
unchanged; consequently a second response following any response is either
absorbed by the wait guard or the first one was itself a no-op — a trial
can never be double-counted. -/
theorem c5_response_noop (s : SessionState) (r : ColorKey) (now : ℚ) :
    ((s.isWaiting = true ∨ s.sessionId = none ∨
        s.trials.length ≤ s.currentIndex) → handleResponse s r now = s) ∧
    (∀ r2 : ColorKey, ∀ now2 : ℚ,
      handleResponse (handleResponse s r now) r2 now2 =
        handleResponse s r now ∨ handleResponse s r now = s) := by
  constructor
  · intro h
    rw [handleResponse, if_pos h]
  · intro r2 now2
    by_cases hg : s.isWaiting = true ∨ s.sessionId = none ∨
        s.trials.length ≤ s.currentIndex
    · right
      rw [handleResponse, if_pos hg]
    · left
      have h1 : (handleResponse s r now).isWaiting = true := by
        rw [handleResponse, if_neg hg]
      rw [handleResponse, if_pos (Or.inl h1)]

/-- Witness for C5 at a concrete waiting state: the response is dropped. -/
theorem c5_response_noop_witness :
    (c5WaitingState.isWaiting = true ∨ c5WaitingState.sessionId = none ∨
      c5WaitingState.trials.length ≤ c5WaitingState.currentIndex) ∧
    handleResponse c5WaitingState ColorKey.red 0 = c5WaitingState :=
  ⟨Or.inl rfl,
    (c5_response_noop c5WaitingState ColorKey.red 0).1 (Or.inl rfl)⟩

/-- Any step keeps the result count at most the index plus the wait flag,
even a stale timeout firing after a restart. -/
theorem step_length_le (s1 s2 : SessionState) (hs : Step s1 s2)
    (h : s1.results.length ≤ s1.currentIndex +
      (if s1.isWaiting then 1 else 0)) :
    s2.results.length ≤ s2.currentIndex +
      (if s2.isWaiting then 1 else 0) := by
  cases hs with
  | respond r now hm =>
    by_cases hg : s1.isWaiting = true ∨ s1.sessionId = none ∨
        s1.trials.length ≤ s1.currentIndex
    · rw [handleResponse, if_pos hg]
      exact h
    · have hw : s1.isWaiting = false := by
        cases hb : s1.isWaiting
        · rfl
        · exact absurd (Or.inl hb) hg
      have h2 : s1.results.length ≤ s1.currentIndex := by
        simpa [hw] using h
      rw [handleResponse, if_neg hg]
      simp [List.length_append]
      omega
  | tick htp =>
    have h3 : s1.results.length ≤ s1.currentIndex + 1 := by
      cases hw : s1.isWaiting <;> simp [hw] at h <;> omega
    rw [interTrialTick]
    cases hP : s1.pendingTimers with
    | nil => exact absurd hP htp
    | cons b rest =>
      cases hcompl : s1.completed with
      | false =>
        cases b with
        | false =>
          simp only [hcompl]
          simpa using h3
        | true =>
          simp only [hcompl]
          simpa [hcompl] using h
      | true =>
        simp only [hcompl]
        simpa [hcompl] using h
  | restart sid2 ts2 hm =>
    simp [handleRestart]
  | onset t hm =>
    simpa using h

/-- A clean step preserves the exact accounting: the result count is the
index plus the wait flag, and while mounted the wait flag tracks the
single pending timeout. -/
theorem cleanStep_inv (s1 s2 : SessionState) (hs : CleanStep s1 s2)
    (h1 : s1.results.length = s1.currentIndex +
      (if s1.isWaiting then 1 else 0))
    (h2 : s1.completed = false →
      (s1.isWaiting = false → s1.pendingTimers = []) ∧
      s1.pendingTimers.length ≤ 1) :
    s2.results.length = s2.currentIndex +
      (if s2.isWaiting then 1 else 0) ∧
    (s2.completed = false →
      (s2.isWaiting = false → s2.pendingTimers = []) ∧
      s2.pendingTimers.length ≤ 1) := by
  cases hs with
  | respond r now hm =>
    by_cases hg : s1.isWaiting = true ∨ s1.sessionId = none ∨
        s1.trials.length ≤ s1.currentIndex
    · rw [handleResponse, if_pos hg]
      exact ⟨h1, h2⟩
    · have hw : s1.isWaiting = false := by
        cases hb : s1.isWaiting
        · rfl
        · exact absurd (Or.inl hb) hg
      have hp : s1.pendingTimers = [] := (h2 hm).1 hw
      have h1x : s1.results.length = s1.currentIndex := by
        simpa [hw] using h1
      rw [handleResponse, if_neg hg]
      constructor
      · simp [List.length_append, h1x]
      · intro _
        constructor
        · intro hfw
          simp at hfw
        · simp [hp]
  | tick htp =>
    cases hP : s1.pendingTimers with
    | nil => exact absurd hP htp
    | cons b rest =>
      rw [interTrialTick, hP]
      cases hcompl : s1.completed with
      | false =>
        have hsub := h2 hcompl
        have hw : s1.isWaiting = true := by
          cases hbw : s1.isWaiting
          · have hnil := hsub.1 hbw
            rw [hnil] at hP
            exact absurd hP (by simp)
          · rfl
        have hr : rest = [] := by
          have hlen := hsub.2
          rw [hP] at hlen
          cases rest with
          | nil => rfl
          | cons c cs =>
            simp [List.length_cons] at hlen
        cases b with
        | false =>
          simp only [hcompl]
          have h1x : s1.results.length = s1.currentIndex + 1 := by
            simpa [hw] using h1
          refine ⟨by simpa using h1x, ?_⟩
          intro _
          exact ⟨fun _ => hr, by simp [hr]⟩
        | true =>
          simp only [hcompl]
          refine ⟨by simpa using h1, ?_⟩
          intro hc
          simp at hc
      | true =>
        simp only [hcompl]
        refine ⟨by simpa using h1, ?_⟩
        intro hc
        simp [hcompl] at hc
  | restart sid2 ts2 hm hp =>
    constructor
    · simp [handleRestart]
    · intro _
      simp [handleRestart, hp]
  | onset t hm =>
    exact ⟨by simpa using h1, by simpa using h2⟩

/-- Every cleanly reachable state satisfies the exact accounting and the
timeout-tracking side conditions. -/
theorem cleanReachable_inv (s : SessionState) (h : CleanReachable s) :
    s.results.length = s.currentIndex +
      (if s.isWaiting then 1 else 0) ∧
    (s.completed = false →
      (s.isWaiting = false → s.pendingTimers = []) ∧
      s.pendingTimers.length ≤ 1) := by
  obtain ⟨sid, ts, hr⟩ := h
  induction hr with
  | refl => simp [initialState]
  | tail _ hs ih => exact cleanStep_inv _ _ hs ih.1 ih.2

/-- C4 counterexample: immediately after the first response of a fresh
session — a reachable state — one result is recorded but the index is still
0, because the index only advances when the inter-trial delay elapses. -/
theorem c4_invariant_fails :
    Reachable c4CexState ∧
    c4CexState.results.length ≠ c4CexState.currentIndex := by
  constructor
  · exact ⟨"a", generateTrials (fun _ => false),
      Relation.ReflTransGen.single
        (Step.respond (initialState "a" (generateTrials (fun _ => false)))
          ColorKey.red 5 rfl)⟩
  · decide

/-- C4 amended: in every reachable session state the number of recorded
results is at most the current index plus one while the inter-trial wait is
in effect (and at most the index otherwise); this is an equality on every
execution in which no restart happens while a timeout is pending — but only
an inequality in general, because `handleRestart` does not cancel the
pending timeout: responding, restarting during the wait, and letting the
stale timeout fire reaches a state with no results and index 1. -/
theorem c4_results_length_invariant :
    (∀ s : SessionState, Reachable s →
      s.results.length ≤ s.currentIndex +
        (if s.isWaiting then 1 else 0)) ∧
    (∀ s : SessionState, CleanReachable s →
      s.results.length = s.currentIndex +
        (if s.isWaiting then 1 else 0)) ∧
    Reachable c4StaleState ∧
    c4StaleState.results.length ≠
      c4StaleState.currentIndex +
        (if c4StaleState.isWaiting then 1 else 0) := by
  refine ⟨?_, ?_, ?_, ?_⟩
  · intro s h
    obtain ⟨sid, ts, hr⟩ := h
    induction hr with
    | refl => simp [initialState]
    | tail _ hs ih => exact step_length_le _ _ hs ih
  · intro s h
    exact (cleanReachable_inv s h).1
  · exact ⟨"a", generateTrials (fun _ => false),
      Relation.ReflTransGen.head
        (Step.respond (initialState "a" (generateTrials (fun _ => false)))
          ColorKey.red 5 rfl)
        (Relation.ReflTransGen.head
          (Step.restart _ "b" (generateTrials (fun _ => true)) (by decide))
          (Relation.ReflTransGen.single (Step.tick _ (by decide))))⟩
  · decide

/-- Witness for C4 amended at the cleanly reachable post-response state. -/
theorem c4_results_length_invariant_witness :
    CleanReachable c4CexState ∧
    c4CexState.results.length =
      c4CexState.currentIndex + (if c4CexState.isWaiting then 1 else 0) :=
  ⟨⟨"a", generateTrials (fun _ => false),
      Relation.ReflTransGen.single
        (CleanStep.respond
          (initialState "a" (generateTrials (fun _ => false)))
          ColorKey.red 5 rfl)⟩,
    c4_results_length_invariant.2.1 c4CexState
      ⟨"a", generateTrials (fun _ => false),
        Relation.ReflTransGen.single
          (CleanStep.respond
            (initialState "a" (generateTrials (fun _ => false)))
            ColorKey.red 5 rfl)⟩⟩

end Stroop
